/-
Verification of the Job-Tracker reconciliation engine.

Shallow embedding of the Python sources:
  src/config/settings.py, src/config/keywords.py, src/utils/text_utils.py,
  src/models/application.py, src/models/email.py,
  src/matching/matcher.py, src/sheets/manager.py, src/sheets/merge_manager.py,
  src/hitl/conflict_detector.py, src/hitl/conflict_resolver.py,
  src/tracking/conflict_resolutions.py, src/tracking/processed_emails.py,
  src/detection/false_positives.py.

Modelling conventions:
  * Python `datetime` values are modelled as `Int` timestamps (only their
    linear order and day arithmetic matter to the embedded code).
  * A Python variable of static type `Optional[str]` (or a `str` variable
    that can dynamically hold `None`) is modelled as `Option String`.
  * Python truthiness of a string `s` is `s ≠ ""`; of an `Optional[str]`
    it is "is `some s` with `s ≠ ""`".
  * The external `rapidfuzz.fuzz.ratio` similarity and `datetime.now()`
    are passed as explicit parameters (`ratio`, `now`).
  * Persisted tracker files are modelled as in-memory values; a Python
    `dict` is modelled as a function to `Option _`.
-/
import Mathlib

namespace JobTracker

/-! ### Constants from src/config/settings.py and src/config/keywords.py -/

/-- `STATUS_VALUES` from src/config/settings.py (ordered by progression). -/
def STATUS_VALUES : List String :=
  ["Applied", "Application Received", "Under Review", "Phone Screen Scheduled",
   "Interview Scheduled", "Assessment Sent", "Offer Received", "Rejected", "Withdrawn"]

/-- `TERMINAL_STATUSES` from src/config/settings.py. -/
def TERMINAL_STATUSES : List String := ["Rejected", "Withdrawn", "Offer Received"]

/-- `MATCHING_THRESHOLD` from src/config/settings.py (default 80). -/
def MATCHING_THRESHOLD : ℚ := 80

/-- `COMPANY_SUFFIXES` from src/config/keywords.py. -/
def COMPANY_SUFFIXES : List String :=
  ["inc", "inc.", "llc", "llc.", "ltd", "ltd.", "gmbh", "ag",
   "corp", "corp.", "corporation", "company", "co."]

/-! ### Python string methods

Structurally recursive models of the Python string methods the engine
uses (`str.lower`, `str.strip`, `str.split`, `str.endswith`, `int(str)`),
defined over the character list of a `String` so concrete inputs evaluate
inside the kernel. -/

/-- Python `str.lower()`. -/
def pyLower (s : String) : String := String.mk (s.data.map Char.toLower)

/-- Python `str.strip()`: drop leading and trailing whitespace. -/
def pyStrip (s : String) : String :=
  String.mk (((s.data.dropWhile Char.isWhitespace).reverse.dropWhile
    Char.isWhitespace).reverse)

/-- The trailing-whitespace cut used by the `\s*$` part of the
suffix-stripping regex. -/
def pyStripRight (s : String) : String :=
  String.mk ((s.data.reverse.dropWhile Char.isWhitespace).reverse)

/-- Split a character list at every separator character (keeping empty
pieces, like Python `str.split(sep)`). -/
def splitCharsAux (p : Char → Bool) : List Char → List Char → List (List Char)
  | [], acc => [acc.reverse]
  | c :: cs, acc =>
      if p c then acc.reverse :: splitCharsAux p cs []
      else splitCharsAux p cs (c :: acc)

/-- Python `str.split(sep)` for a one-character separator (empty pieces
kept). -/
def pySplitOn (s : String) (sep : Char) : List String :=
  (splitCharsAux (fun c => c = sep) s.data []).map String.mk

/-- The pieces of Python's whitespace `str.split()` before empty pieces
are discarded (callers filter them, as `" ".join(....split())` does). -/
def pySplitWhitespace (s : String) : List String :=
  (splitCharsAux Char.isWhitespace s.data []).map String.mk

/-- Python `str.endswith(suffix)`. -/
def pyEndsWith (s suffix : String) : Bool :=
  suffix.data.isSuffixOf s.data

/-- Drop the last `n` characters (for removing a matched suffix). -/
def pyDropRight (s : String) (n : Nat) : String :=
  String.mk (s.data.take (s.data.length - n))

/-- Parse a non-empty all-digit character list. -/
def pyParseNat : List Char → Option Nat
  | [] => none
  | cs => cs.foldl
      (fun acc c =>
        match acc with
        | some n => if c.isDigit then some (n * 10 + (c.toNat - 48)) else none
        | none => none)
      (some 0)

/-- Python `int(str)` on a stripped string: optional sign followed by
digits (the underscore-separator corner of CPython's grammar is not
modelled). -/
def pyToInt (s : String) : Option Int :=
  match s.data with
  | [] => none
  | '-' :: rest => (pyParseNat rest).map (fun n => -(n : Int))
  | '+' :: rest => (pyParseNat rest).map (fun n => (n : Int))
  | cs => (pyParseNat cs).map (fun n => (n : Int))

/-! ### Text utilities from src/utils/text_utils.py -/

/-- `normalize_text`: lowercase, trim, collapse internal whitespace
(`" ".join(text.lower().strip().split())`). -/
def normalize_text (text : String) : String :=
  if text = "" then ""
  else
    String.intercalate " "
      ((pySplitWhitespace (pyStrip (pyLower text))).filter (fun w => w ≠ ""))

/-- One pass of the suffix-removal regex in `normalize_company_name`:
`re.sub(rf"\s+{suffix}\.?\s*$", "", s)`.  The match needs at least one
whitespace character before the suffix, an optional trailing period and
arbitrary trailing whitespace; when it fires, the whole tail is deleted. -/
def strip_company_suffix (s suffix : String) : String :=
  let t := pyStripRight s
  let rest : Option String :=
    if pyEndsWith t (suffix ++ ".") then some (pyDropRight t (suffix.length + 1))
    else if pyEndsWith t suffix then some (pyDropRight t suffix.length)
    else none
  match rest with
  | some r => if r ≠ pyStripRight r then pyStripRight r else s
  | none => s

/-- `normalize_company_name`: lowercase, strip corporate suffixes, collapse
whitespace. -/
def normalize_company_name (company : String) : String :=
  if company = "" then ""
  else
    let normalized := pyStrip (pyLower company)
    let normalized := COMPANY_SUFFIXES.foldl strip_company_suffix normalized
    String.intercalate " " ((pySplitWhitespace normalized).filter (fun w => w ≠ ""))

/-! ### Data model (src/models/application.py, src/models/email.py) -/

/-- `Application` dataclass from src/models/application.py.
Dates are `Int` timestamps; `Optional` fields are `Option`. -/
structure Application where
  company : String
  position : String
  application_date : Int
  current_status : String
  last_updated : Int
  email_count : Nat := 1
  latest_email_date : Option Int := none
  notes : String := ""
  gmail_link : String := ""
  row_number : Option Int := none
  thread_id : Option String := none
  merge_into_row : Option String := none
deriving Repr, DecidableEq

/-- `Application.get_thread_ids`: split the CSV `thread_id` field, strip each
entry and drop empties; empty/missing `thread_id` gives `[]`. -/
def Application.get_thread_ids (a : Application) : List String :=
  match a.thread_id with
  | none => []
  | some s =>
      if s = "" then []
      else ((pySplitOn s ',').map pyStrip).filter (fun tid => tid ≠ "")

/-- `Application.add_thread_id`: append a thread id to the CSV field if not
already present. -/
def Application.add_thread_id (a : Application) (new_thread_id : String) : Application :=
  let current_ids := a.get_thread_ids
  if new_thread_id ∈ current_ids then a
  else { a with thread_id := some (String.intercalate "," (current_ids ++ [new_thread_id])) }

/-- The fields of `Email` (src/models/email.py) consumed by the
reconciliation engine. -/
structure Email where
  message_id : String
  thread_id : String
  date : Int
  gmail_link : String
  company : Option String := none
  position : Option String := none
  status : Option String := none
deriving Repr, DecidableEq

/-- Python truthiness of an `Optional[str]`. -/
def optTruthy (v : Option String) : Bool :=
  match v with
  | some s => s ≠ ""
  | none => false

/-- Python `v or default` for an `Optional[str]` `v` and a string default. -/
def orDefault (v : Option String) (default : String) : String :=
  match v with
  | some s => if s = "" then default else s
  | none => default

/-! ### Status Progression Gate (src/sheets/manager.py, `_should_update_status`) -/

/-- `ApplicationManager._should_update_status`.  The `new` argument is the
email's status, which can be `None` (Python `None not in STATUS_VALUES`
makes the gate return `False` then).  A `ValueError` from
`STATUS_VALUES.index(current)` is modelled by the membership test: an
unrecognised current status allows the update. -/
def should_update_status (current : String) («new» : Option String) : Bool :=
  if TERMINAL_STATUSES.contains current then false
  else
    match «new» with
    | none => false
    | some n =>
        if !(STATUS_VALUES.contains n) then false
        else if !(STATUS_VALUES.contains current) then true
        else decide (STATUS_VALUES.indexOf current ≤ STATUS_VALUES.indexOf n)

/-! ### Reconciliation Matcher (src/matching/matcher.py)

`ApplicationMatcher` holds a `MergedApplicationsTracker`; its
`get_merged_thread_ids` lookup is passed as the parameter
`merged_thread_ids : String → Option String` (the persisted
`merged_thread_ids` dict).  The external `rapidfuzz.fuzz.ratio` similarity
(a 0–100 score) is the parameter `ratio`; `datetime.now()` is `now`. -/

/-- `ApplicationMatcher._match_by_thread_id`: redirect through the merge
map first (a falsy mapped value is ignored), then scan thread-id sets. -/
def match_by_thread_id (merged_thread_ids : String → Option String)
    (email : Email) (applications : List Application) : Option Application × Int :=
  let email_thread_id := email.thread_id
  let merged_hit : Option Application :=
    match merged_thread_ids email_thread_id with
    | some merged_target =>
        if merged_target = "" then none
        else
          let target_thread_ids := (pySplitOn merged_target ',').map pyStrip
          applications.find? (fun app =>
            target_thread_ids.any (fun tid => app.get_thread_ids.contains tid))
    | none => none
  match merged_hit with
  | some app => (some app, 100)
  | none =>
      match applications.find? (fun app => app.get_thread_ids.contains email_thread_id) with
      | some app => (some app, 100)
      | none => (none, 0)

/-- `ApplicationMatcher._match_exact`: exact normalized company+position,
skipping unknown positions on either side. -/
def match_exact (email : Email) (applications : List Application) :
    Option Application × Int :=
  if !(optTruthy email.company) || !(optTruthy email.position)
      || email.position == some "Unknown Position" then (none, 0)
  else
    let email_company := normalize_company_name (email.company.getD "")
    let email_position := pyStrip (pyLower (email.position.getD ""))
    match applications.find? (fun app =>
        !(app.position = "" || app.position = "Unknown Position")
        && normalize_company_name app.company == email_company
        && pyStrip (pyLower app.position) == email_position) with
    | some app => (some app, 95)
    | none => (none, 0)

/-- `ApplicationMatcher._match_fuzzy`: weighted fuzzy matching, with a
company-only path (threshold 90) when either side's position is unknown. -/
def match_fuzzy (ratio : String → String → ℚ) (email : Email)
    (applications : List Application) : Option Application × Int :=
  if !(optTruthy email.company) then (none, 0)
  else
    let email_has_unknown := !(optTruthy email.position) || email.position == some "Unknown Position"
    let email_company := normalize_company_name (email.company.getD "")
    let email_position :=
      match email.position with
      | some p => pyStrip (pyLower p)
      | none => ""
    let best := applications.foldl
      (fun (best : Option Application × ℚ) app =>
        let app_has_unknown := app.position = "" || app.position = "Unknown Position"
        let app_company := normalize_company_name app.company
        let app_position := pyStrip (pyLower app.position)
        let company_score := ratio email_company app_company
        if email_has_unknown || app_has_unknown then
          if 90 ≤ company_score ∧ best.2 < company_score then (some app, company_score)
          else best
        else
          let position_score := ratio email_position app_position
          let combined_score := company_score * (6/10) + position_score * (4/10)
          if 85 ≤ company_score ∧ 75 ≤ position_score ∧ best.2 < combined_score then
            (some app, combined_score)
          else best)
      (none, 0)
    match best.1 with
    | some m => if MATCHING_THRESHOLD ≤ best.2 then (some m, best.2.floor) else (none, 0)
    | none => (none, 0)

/-- `ApplicationMatcher._match_recent_company`: company-only match against
applications whose date is within 30 days of `now`, accepted only when
exactly one candidate remains; when both sides carry a real position a
similarity of at least 85 is required (failing it rejects outright). -/
def match_recent_company (ratio : String → String → ℚ) (now : Int)
    (email : Email) (applications : List Application) : Option Application × Int :=
  if !(optTruthy email.company) then (none, 0)
  else
    let email_company := normalize_company_name (email.company.getD "")
    let recent_threshold := now - 30
    let recent_matches := applications.filter (fun app =>
      normalize_company_name app.company == email_company
      && decide (recent_threshold ≤ app.application_date))
    match recent_matches with
    | [app] =>
        let email_has_real_position :=
          match email.position with
          | some p => p ≠ "" && pyStrip p ≠ "" && p ≠ "Unknown Position"
          | none => false
        let app_has_real_position :=
          app.position ≠ "" && pyStrip app.position ≠ "" && app.position ≠ "Unknown Position"
        if email_has_real_position && app_has_real_position then
          let position_score := ratio (pyStrip (pyLower (email.position.getD ""))) (pyStrip (pyLower app.position))
          if 85 ≤ position_score then (some app, 70) else (none, 0)
        else (some app, 70)
    | _ => (none, 0)

/-- `ApplicationMatcher.find_match`: the four strategies in strict priority
order, returning on the first hit. -/
def find_match (ratio : String → String → ℚ)
    (merged_thread_ids : String → Option String) (now : Int)
    (email : Email) (applications : List Application) : Option Application × Int :=
  if applications.isEmpty then (none, 0)
  else
    let r1 := match_by_thread_id merged_thread_ids email applications
    if r1.1.isSome then r1
    else
      let r2 := match_exact email applications
      if r2.1.isSome then r2
      else
        let r3 := match_fuzzy ratio email applications
        if r3.1.isSome then r3
        else
          let r4 := match_recent_company ratio now email applications
          if r4.1.isSome then r4
          else (none, 0)

/-! ### Conflict Detector (src/hitl/conflict_detector.py) -/

/-- The `field_type` literal `"company" | "position"`. -/
inductive FieldType where
  | company
  | position
deriving Repr, DecidableEq

/-- `FieldConflict` dataclass.  The values are `Option String` because the
Python code can dynamically hold `None` in these slots. -/
structure FieldConflict where
  field_name : String
  spreadsheet_value : Option String
  email_value : Option String
  is_upgrade : Bool
deriving Repr, DecidableEq

/-- `is_unknown_value`: `value in [None, "", "Unknown"]` for company, with
`"Unknown Position"` also unknown for position. -/
def is_unknown_value (value : Option String) (field_type : FieldType) : Bool :=
  match field_type with
  | .position => ([none, some "", some "Unknown", some "Unknown Position"] : List (Option String)).contains value
  | .company => ([none, some "", some "Unknown"] : List (Option String)).contains value

/-- The `field_name` string attached to a conflict for each field type. -/
def field_name_of (field_type : FieldType) : String :=
  match field_type with
  | .company => "Company"
  | .position => "Position"

/-- `detect_field_conflict`: equal values → no conflict; unknown stored and
known incoming → upgrade; known stored and unknown incoming → silently
preserved; both known and different → real conflict. -/
def detect_field_conflict (spreadsheet_value email_value : Option String)
    (field_type : FieldType) : Option FieldConflict :=
  let ss_unknown := is_unknown_value spreadsheet_value field_type
  let email_unknown := is_unknown_value email_value field_type
  if spreadsheet_value = email_value then none
  else if ss_unknown && !email_unknown then
    some { field_name := field_name_of field_type, spreadsheet_value, email_value,
           is_upgrade := true }
  else if !ss_unknown && email_unknown then none
  else if !ss_unknown && !email_unknown then
    some { field_name := field_name_of field_type, spreadsheet_value, email_value,
           is_upgrade := false }
  else none

/-- `detect_conflicts`: evaluate company then position against the email's
values (with their sentinels substituted for missing values). -/
def detect_conflicts (application : Application) (email : Email) : List FieldConflict :=
  let company_conflict := detect_field_conflict (some application.company)
    (some (orDefault email.company "Unknown")) .company
  let position_conflict := detect_field_conflict (some application.position)
    (some (orDefault email.position "Unknown Position")) .position
  (match company_conflict with | some c => [c] | none => []) ++
  (match position_conflict with | some c => [c] | none => [])

/-! ### Conflict Resolution Tracker (src/tracking/conflict_resolutions.py) -/

/-- One saved resolution record (the dict value stored under a key). -/
structure Resolution where
  field_name : String
  spreadsheet_value : Option String
  email_value : Option String
  chosen_value : String
  resolution_type : String
deriving Repr, DecidableEq

/-- The persisted `resolutions` dict, as a map from key strings. -/
def Resolutions : Type := String → Option Resolution

/-- The empty tracker (fresh `conflict_resolutions.json`). -/
def Resolutions.empty : Resolutions := fun _ => none

/-- `ConflictResolutionTracker._make_key`:
`f"{field_name.lower()}:{normalize_text(ss)}:{normalize_text(email)}"`;
`normalize_text(None)` is `""`. -/
def make_key (field_name : String) (spreadsheet_value email_value : Option String) : String :=
  pyLower field_name ++ ":" ++ normalize_text (spreadsheet_value.getD "")
    ++ ":" ++ normalize_text (email_value.getD "")

/-- `ConflictResolutionTracker.find_resolution`. -/
def find_resolution (data : Resolutions) (field_name : String)
    (spreadsheet_value email_value : Option String) : Option Resolution :=
  data (make_key field_name spreadsheet_value email_value)

/-- `ConflictResolutionTracker.save_resolution`: store the record under the
normalized key (dict assignment). -/
def save_resolution (data : Resolutions) (field_name : String)
    (spreadsheet_value email_value : Option String)
    (chosen_value : String) (resolution_type : String) : Resolutions :=
  fun k =>
    if k = make_key field_name spreadsheet_value email_value then
      some { field_name, spreadsheet_value, email_value, chosen_value, resolution_type }
    else data k

/-! ### Conflict Resolver (src/hitl/conflict_resolver.py)

Only the prompt-free decision paths are embedded as total functions; the
console prompt itself is I/O, so `resolve_conflicts` returns
`Except Unit ConflictResolution` where `.error ()` marks "the interactive
prompt would be shown". -/

/-- `ConflictResolution` dataclass.  `company`/`position` are
`Option String` because email-side values can dynamically be `None`. -/
structure ConflictResolution where
  company : Option String
  position : Option String
  user_modified : Bool := false
  create_new_entry : Bool := false
deriving Repr, DecidableEq

/-- `ConflictResolver._apply_upgrades`: replace each upgraded field with the
email's value. -/
def apply_upgrades (application : Application) (upgrades : List FieldConflict) :
    ConflictResolution :=
  let final := upgrades.foldl
    (fun (final : Option String × Option String) upgrade =>
      if upgrade.field_name = "Company" then (upgrade.email_value, final.2)
      else if upgrade.field_name = "Position" then (final.1, upgrade.email_value)
      else final)
    (some application.company, some application.position)
  { company := final.1, position := final.2, user_modified := false }

/-- `ConflictResolver._resolve_non_interactive`: apply upgrades, silently
preserve stored values for real conflicts. -/
def resolve_non_interactive (application : Application)
    (upgrades : List FieldConflict) (_real_conflicts : List FieldConflict) :
    ConflictResolution :=
  let final := upgrades.foldl
    (fun (final : Option String × Option String) upgrade =>
      if upgrade.field_name = "Company" then (upgrade.email_value, final.2)
      else if upgrade.field_name = "Position" then (final.1, upgrade.email_value)
      else final)
    (some application.company, some application.position)
  { company := final.1, position := final.2, user_modified := false }

/-- The `resolved_values` dict built by `_prompt_user` while checking that
every conflict has a saved resolution (later conflicts overwrite earlier
entries for the same field name, as dict assignment does). -/
def resolved_values (tracker : Resolutions) (conflicts : List FieldConflict) :
    List (String × String) :=
  conflicts.foldl
    (fun acc c =>
      match find_resolution tracker c.field_name c.spreadsheet_value c.email_value with
      | some saved =>
          if acc.any (fun p => p.1 == c.field_name) then
            acc.map (fun p => if p.1 == c.field_name then (p.1, saved.chosen_value) else p)
          else acc ++ [(c.field_name, saved.chosen_value)]
      | none => acc)
    []

/-- `ConflictResolver._prompt_user`: when every real conflict has a saved
resolution, apply them all without prompting; otherwise the console prompt
runs (`.error ()`). -/
def prompt_user (tracker : Resolutions) (application : Application)
    (conflicts : List FieldConflict) : Except Unit ConflictResolution :=
  let all_resolved := conflicts.all (fun c =>
    (find_resolution tracker c.field_name c.spreadsheet_value c.email_value).isSome)
  if all_resolved then
    let rv := resolved_values tracker conflicts
    let final_company := ((rv.lookup "Company").getD application.company)
    let final_position := ((rv.lookup "Position").getD application.position)
    .ok { company := some final_company, position := some final_position,
          user_modified := true }
  else .error ()

/-- `ConflictResolver.resolve_conflicts`: no conflicts → current values;
non-interactive → upgrades only; only upgrades → apply silently; real
conflicts in interactive mode → `prompt_user`. -/
def resolve_conflicts (interactive : Bool) (tracker : Resolutions)
    (application : Application) (conflicts : List FieldConflict) :
    Except Unit ConflictResolution :=
  if conflicts.isEmpty then
    .ok { company := some application.company, position := some application.position,
          user_modified := false }
  else
    let auto_upgrades := conflicts.filter (fun c => c.is_upgrade)
    let real_conflicts := conflicts.filter (fun c => !c.is_upgrade)
    if !interactive then
      .ok (resolve_non_interactive application auto_upgrades real_conflicts)
    else if real_conflicts.isEmpty then
      .ok (apply_upgrades application auto_upgrades)
    else
      prompt_user tracker application real_conflicts

/-! ### Dedup trackers (src/tracking/processed_emails.py,
src/detection/false_positives.py) -/

/-- `FalsePositivesTracker` state: the persisted `message_ids` list and the
`companies` dict (lowercased company → list of lowercased positions). -/
structure FalsePositives where
  message_ids : List String
  companies : List (String × List String)
deriving Repr, DecidableEq

/-- `FalsePositivesTracker.is_false_positive`. -/
def FalsePositives.is_false_positive (fp : FalsePositives)
    (message_id company position : String) : Bool :=
  if fp.message_ids.contains message_id then true
  else
    match fp.companies.lookup (pyLower company) with
    | some positions => positions.contains (pyLower position)
    | none => false

/-- `FalsePositivesTracker.add_false_positive`: append the message id (if
new) and record the lowercased company→position combination. -/
def FalsePositives.add_false_positive (fp : FalsePositives)
    (message_id company position : String) : FalsePositives :=
  let message_ids :=
    if fp.message_ids.contains message_id then fp.message_ids
    else fp.message_ids ++ [message_id]
  let company_lower := pyLower company
  let position_lower := pyLower position
  let companies :=
    match fp.companies.lookup company_lower with
    | some positions =>
        if positions.contains position_lower then fp.companies
        else fp.companies.map (fun p =>
          if p.1 == company_lower then (p.1, p.2 ++ [position_lower]) else p)
    | none => fp.companies ++ [(company_lower, [position_lower])]
  { message_ids, companies }

/-! ### Application Manager (src/sheets/manager.py)

The manager's external collaborators are modelled as one state record:
`rows` is the spreadsheet body (data rows, in sheet order, so the row in
list position `i` is sheet row `i + 2`), and the two persisted trackers
ride along.  `client.append_row` appends to `rows`; `client.update_row n`
replaces sheet row `n`. -/

/-- The manager-visible state: sheet rows plus persisted trackers. -/
structure ManagerState where
  rows : List Application
  false_positives : FalsePositives
  processed : List String
deriving Repr, DecidableEq

/-- `ProcessedEmailsTracker.mark_processed` (set insertion). -/
def mark_processed (st : ManagerState) (message_id : String) : ManagerState :=
  if st.processed.contains message_id then st
  else { st with processed := st.processed ++ [message_id] }

/-- `ApplicationManager.get_all_applications`: parse the data rows, giving
each its current sheet row number (data starts at sheet row 2). -/
def get_all_applications (rows : List Application) : List Application :=
  rows.enum.map (fun p => { p.2 with row_number := some (p.1 + 2) })

/-- `client.update_row`: overwrite sheet row `n` in place. -/
def update_row (rows : List Application) (n : Int) (app : Application) :
    List Application :=
  rows.enum.map (fun p => if (p.1 : Int) + 2 = n then app else p.2)

/-- `ApplicationManager._find_application_by_identity`: re-read the sheet
and locate the application by thread id (when truthy) or by
case-insensitive company+position. -/
def find_application_by_identity (rows : List Application)
    (application : Application) : Option Application :=
  let current_apps := get_all_applications rows
  let by_company_position := current_apps.find? (fun app =>
    pyLower app.company == pyLower application.company
    && pyLower app.position == pyLower application.position)
  match application.thread_id with
  | some tid =>
      if tid ≠ "" then
        match current_apps.find? (fun app => app.thread_id == some tid) with
        | some app => some app
        | none => by_company_position
      else by_company_position
  | none => by_company_position

/-- The `Application(...)` record built by `create_application`. -/
def new_application_record (email : Email) : Application :=
  { company := orDefault email.company "Unknown"
    position := orDefault email.position "Unknown Position"
    application_date := email.date
    current_status := orDefault email.status "Applied"
    last_updated := email.date
    email_count := 1
    latest_email_date := some email.date
    notes := ""
    gmail_link := email.gmail_link
    thread_id := some email.thread_id }

/-- `ApplicationManager.create_application`: skip already-processed and
known-false-positive emails; otherwise append the new row and mark the
message processed. -/
def create_application (st : ManagerState) (email : Email) :
    Option Application × ManagerState :=
  if st.processed.contains email.message_id then (none, st)
  else if st.false_positives.is_false_positive email.message_id
      (orDefault email.company "Unknown") (orDefault email.position "Unknown Position") then
    (none, st)
  else
    let application := new_application_record email
    let st := { st with rows := st.rows ++ [application] }
    let st := mark_processed st email.message_id
    (some application, st)

/-- The in-place field updates `update_application` performs on the
re-found application (manager.py lines 136–174): keep the earliest
application date, gate the status transition, then always refresh the
metadata. -/
def update_app_fields (current_app : Application) (email : Email) : Application :=
  let current_app :=
    if email.date < current_app.application_date then
      { current_app with application_date := email.date }
    else current_app
  let current_app :=
    if !(TERMINAL_STATUSES.contains current_app.current_status)
        && should_update_status current_app.current_status email.status then
      { current_app with current_status := email.status.getD current_app.current_status }
    else current_app
  { current_app with
    email_count := current_app.email_count + 1
    latest_email_date := some (max email.date (current_app.latest_email_date.getD email.date))
    last_updated := email.date
    gmail_link := if email.gmail_link ≠ "" then email.gmail_link else current_app.gmail_link }

/-- `ApplicationManager.update_application`: skip already-processed emails;
re-find the application (recording a false positive and marking the message
processed when it vanished); otherwise apply `update_app_fields`, write the
row back and mark the message processed. -/
def update_application (st : ManagerState) (application : Application)
    (email : Email) : Bool × ManagerState :=
  if st.processed.contains email.message_id then (false, st)
  else
    match find_application_by_identity st.rows application with
    | none =>
        let st := { st with false_positives :=
          (st.false_positives.add_false_positive email.message_id
            application.company application.position) }
        let st := mark_processed st email.message_id
        (false, st)
    | some current_app =>
        let current_app := update_app_fields current_app email
        let st :=
          match current_app.row_number with
          | some n => { st with rows := update_row st.rows n current_app }
          | none => st
        let st := mark_processed st email.message_id
        (true, st)

/-! ### Merge Engine (src/sheets/merge_manager.py) -/

/-- `MergeManager._validate_merge`: a raised `MergeValidationError` is
`false`.  Self-merges are rejected; a target whose own `merge_into_row`
parses back to the source is circular; a target with any non-blank
`merge_into_row` is a chain; all are rejected. -/
def validate_merge (source target : Application) : Bool :=
  if source.row_number = target.row_number then false
  else
    let circular :=
      match target.merge_into_row with
      | some tmir =>
          tmir ≠ "" &&
            (match pyToInt (pyStrip tmir) with
             | some target_merge_row => source.row_number == some target_merge_row
             | none => false)
      | none => false
    let chain :=
      match target.merge_into_row with
      | some tmir => tmir ≠ "" && pyStrip tmir ≠ ""
      | none => false
    if circular then false
    else if chain then false
    else true

/-- One iteration of the `find_merge_requests` loop: the pair contributed
by `app` (skips — falsy or unparseable merge flag, missing target, failed
validation — contribute nothing). -/
def merge_request_for (applications : List Application) (app : Application) :
    Option (Application × Application) :=
  match app.merge_into_row with
  | none => none
  | some mir =>
      if mir = "" then none
      else
        match pyToInt (pyStrip mir) with
        | none => none
        | some target_row =>
            match applications.find? (fun candidate =>
                candidate.row_number == some target_row) with
            | none => none
            | some target_app =>
                if validate_merge app target_app then some (app, target_app) else none

/-- `MergeManager.find_merge_requests`: collect the valid (source, target)
pairs in application order. -/
def find_merge_requests (applications : List Application) :
    List (Application × Application) :=
  applications.filterMap (merge_request_for applications)

/-- `MergeManager._get_most_progressed_status`: terminal beats
non-terminal; otherwise compare `STATUS_VALUES` indices (a `ValueError`
falls back to whichever status is recognised, else the first). -/
def get_most_progressed_status (status1 status2 : String) : String :=
  if TERMINAL_STATUSES.contains status1 && !(TERMINAL_STATUSES.contains status2) then
    status1
  else if TERMINAL_STATUSES.contains status2 && !(TERMINAL_STATUSES.contains status1) then
    status2
  else if STATUS_VALUES.contains status1 && STATUS_VALUES.contains status2 then
    if STATUS_VALUES.indexOf status2 ≤ STATUS_VALUES.indexOf status1 then status1 else status2
  else if STATUS_VALUES.contains status1 then status1
  else if STATUS_VALUES.contains status2 then status2
  else status1

/-- Merge step 1: `application_date` keeps the earliest. -/
def merge_application_date (source target : Application) : Application :=
  if source.application_date < target.application_date then
    { target with application_date := source.application_date }
  else target

/-- Merge step 2: `current_status` keeps the most progressed. -/
def merge_status (source target : Application) : Application :=
  let new_status := get_most_progressed_status source.current_status target.current_status
  if new_status ≠ target.current_status then
    { target with current_status := new_status }
  else target

/-- Merge step 3: `email_count` is the sum. -/
def merge_email_count (source target : Application) : Application :=
  { target with email_count := source.email_count + target.email_count }

/-- Merge step 4: `latest_email_date` keeps the most recent (null-safe). -/
def merge_latest_email_date (source target : Application) : Application :=
  let take : Bool :=
    match source.latest_email_date, target.latest_email_date with
    | some sd, some td => decide (td < sd)
    | some _, none => true
    | none, _ => false
  if take then { target with latest_email_date := source.latest_email_date }
  else target

/-- Merge step 5: `gmail_link` — when both sides have a latest-email date,
take the source's link only if its date is strictly later and its link is
non-empty; otherwise fill an empty target link from a non-empty source
link.  (This step runs after step 4 has already folded the source's
latest-email date into the target.) -/
def merge_gmail_link (source target : Application) : Application :=
  match source.latest_email_date, target.latest_email_date with
  | some sd, some td =>
      if td < sd && source.gmail_link ≠ "" then
        { target with gmail_link := source.gmail_link }
      else target
  | _, _ =>
      if source.gmail_link ≠ "" && target.gmail_link = "" then
        { target with gmail_link := source.gmail_link }
      else target

/-- Merge step 6: `notes` concatenate with a `" | "` separator. -/
def merge_notes (source target : Application) : Application :=
  if source.notes ≠ "" && target.notes ≠ "" then
    { target with notes := target.notes ++ " | " ++ source.notes }
  else if source.notes ≠ "" then { target with notes := source.notes }
  else target

/-- Merge step 7: add each source thread id missing from the target's
(pre-loop) thread-id list. -/
def merge_thread_ids (source target : Application) : Application :=
  let source_thread_ids := source.get_thread_ids
  let target_thread_ids := target.get_thread_ids
  source_thread_ids.foldl
    (fun t thread_id =>
      if target_thread_ids.contains thread_id then t else t.add_thread_id thread_id)
    target

/-- `MergeManager.execute_merge`: fold the source into the target, steps
1–7 in source order, then stamp `last_updated` with the current time and
clear the target's own merge flag. -/
def execute_merge (now : Int) (source target : Application) : Application :=
  let target := merge_application_date source target
  let target := merge_status source target
  let target := merge_email_count source target
  let target := merge_latest_email_date source target
  let target := merge_gmail_link source target
  let target := merge_notes source target
  let target := merge_thread_ids source target
  { target with last_updated := now, merge_into_row := none }

/-! ## Theorems -/

/-! ### C2: Status Progression Gate contract -/

/-- C2.  Status Progression Gate contract: the gate returns false when the
current status is terminal; returns false when the proposed status is not
in the fixed status list; when the current status is non-terminal and both
statuses are in the fixed list it returns true iff the index of the
proposed status is ≥ the index of the current one; and when the current
status is non-terminal and unrecognised while the proposed one is in the
list, it returns true. -/
theorem should_update_status_contract :
    (∀ current n : String, current ∈ TERMINAL_STATUSES →
      should_update_status current (some n) = false)
    ∧ (∀ current n : String, n ∉ STATUS_VALUES →
      should_update_status current (some n) = false)
    ∧ (∀ current n : String, current ∉ TERMINAL_STATUSES → current ∈ STATUS_VALUES →
        n ∈ STATUS_VALUES →
      (should_update_status current (some n) = true ↔
        STATUS_VALUES.indexOf current ≤ STATUS_VALUES.indexOf n))
    ∧ (∀ current n : String, current ∉ TERMINAL_STATUSES → current ∉ STATUS_VALUES →
        n ∈ STATUS_VALUES →
      should_update_status current (some n) = true) := by
  refine ⟨?_, ?_, ?_, ?_⟩ <;> intro current n
  · intro h
    have hc : TERMINAL_STATUSES.contains current = true := by
      simpa using h
    simp only [should_update_status, hc]
    simp
  · intro h
    have hc : STATUS_VALUES.contains n = false := by
      simpa using h
    by_cases ht : TERMINAL_STATUSES.contains current = true
    · simp only [should_update_status, ht]
      simp
    · simp only [should_update_status, Bool.not_eq_true] at ht
      simp only [should_update_status, ht, hc]
      simp
  · intro h1 h2 h3
    have hc1 : TERMINAL_STATUSES.contains current = false := by
      simpa using h1
    have hc2 : STATUS_VALUES.contains current = true := by
      simpa using h2
    have hc3 : STATUS_VALUES.contains n = true := by
      simpa using h3
    simp only [should_update_status, hc1, hc2, hc3]
    simp
  · intro h1 h2 h3
    have hc1 : TERMINAL_STATUSES.contains current = false := by
      simpa using h1
    have hc2 : STATUS_VALUES.contains current = false := by
      simpa using h2
    have hc3 : STATUS_VALUES.contains n = true := by
      simpa using h3
    simp only [should_update_status, hc1, hc2, hc3]
    simp

/-- Witness for C2: the gate evaluated on concrete statuses through each
clause of the contract. -/
theorem should_update_status_contract_witness :
    should_update_status "Rejected" (some "Applied") = false
    ∧ should_update_status "Applied" (some "Ghosted") = false
    ∧ (should_update_status "Applied" (some "Under Review") = true ↔
        STATUS_VALUES.indexOf "Applied" ≤ STATUS_VALUES.indexOf "Under Review")
    ∧ should_update_status "Screening" (some "Applied") = true :=
  ⟨should_update_status_contract.1 "Rejected" "Applied" (by decide),
   should_update_status_contract.2.1 "Applied" "Ghosted" (by decide),
   should_update_status_contract.2.2.1 "Applied" "Under Review" (by decide)
     (by decide) (by decide),
   should_update_status_contract.2.2.2 "Screening" "Applied" (by decide)
     (by decide) (by decide)⟩

/-! ### C4: Conflict Detector case analysis -/

/-- C4.  Conflict Detector case analysis: byte-equal values never conflict;
a conflict with `is_upgrade = true` is produced exactly when the stored
value is unknown and the incoming one is not; a known stored value with an
unknown incoming value is silently preserved; and a conflict with
`is_upgrade = false` is produced exactly when both values are known and
differ. -/
theorem detect_field_conflict_cases :
    ∀ (s e : Option String) (ft : FieldType),
      (s = e → detect_field_conflict s e ft = none)
      ∧ ((∃ c, detect_field_conflict s e ft = some c ∧ c.is_upgrade = true) ↔
          (is_unknown_value s ft = true ∧ is_unknown_value e ft = false))
      ∧ (is_unknown_value s ft = false → is_unknown_value e ft = true →
          detect_field_conflict s e ft = none)
      ∧ ((∃ c, detect_field_conflict s e ft = some c ∧ c.is_upgrade = false) ↔
          (is_unknown_value s ft = false ∧ is_unknown_value e ft = false ∧ s ≠ e)) := by
  intro s e ft
  by_cases heq : s = e
  · subst heq
    refine ⟨fun _ => ?_, ?_, fun h1 h2 => ?_, ?_⟩
    · simp [detect_field_conflict]
    · simp [detect_field_conflict]
    · rw [h1] at h2; exact absurd h2 (by simp)
    · simp [detect_field_conflict]
  · by_cases hs : is_unknown_value s ft = true
    · by_cases he : is_unknown_value e ft = true
      · refine ⟨fun h => absurd h heq, ?_, fun h1 _ => ?_, ?_⟩
        · simp [detect_field_conflict, heq, hs, he]
        · rw [hs] at h1; exact absurd h1 (by simp)
        · simp [detect_field_conflict, heq, hs, he]
      · have he' : is_unknown_value e ft = false := by
          simpa using he
        refine ⟨fun h => absurd h heq, ?_, fun h1 _ => ?_, ?_⟩
        · simp [detect_field_conflict, heq, hs, he']
        · rw [hs] at h1; exact absurd h1 (by simp)
        · simp [detect_field_conflict, heq, hs, he']
    · have hs' : is_unknown_value s ft = false := by
        simpa using hs
      by_cases he : is_unknown_value e ft = true
      · refine ⟨fun h => absurd h heq, ?_, fun _ _ => ?_, ?_⟩
        · simp [detect_field_conflict, heq, hs', he]
        · simp [detect_field_conflict, heq, hs', he]
        · simp [detect_field_conflict, heq, hs', he]
      · have he' : is_unknown_value e ft = false := by
          simpa using he
        refine ⟨fun h => absurd h heq, ?_, fun _ h2 => ?_, ?_⟩
        · simp [detect_field_conflict, heq, hs', he']
        · rw [he'] at h2; exact absurd h2 (by simp)
        · simp [detect_field_conflict, heq, hs', he']

/-- Witness for C4: the detector evaluated on concrete stored/incoming
values through the byte-equal and upgrade clauses. -/
theorem detect_field_conflict_cases_witness :
    detect_field_conflict (some "Acme") (some "Acme") FieldType.company = none
    ∧ ((∃ c, detect_field_conflict (some "Unknown") (some "Acme") FieldType.company = some c
          ∧ c.is_upgrade = true) ↔
        (is_unknown_value (some "Unknown") FieldType.company = true
          ∧ is_unknown_value (some "Acme") FieldType.company = false))
    ∧ detect_field_conflict (some "Acme") none FieldType.company = none :=
  ⟨(detect_field_conflict_cases (some "Acme") (some "Acme") FieldType.company).1 rfl,
   (detect_field_conflict_cases (some "Unknown") (some "Acme") FieldType.company).2.1,
   (detect_field_conflict_cases (some "Acme") none FieldType.company).2.2.1
     (by decide) (by decide)⟩

/-! ### Structural lemmas about the merge steps

Each merge step only assigns its own target field; the lemmas below record
which fields it leaves untouched. -/

/-- Step 1 keeps the earlier of the two application dates. -/
theorem merge_application_date_eq (s t : Application) :
    merge_application_date s t =
      { t with application_date := min s.application_date t.application_date } := by
  unfold merge_application_date
  split
  · rename_i h
    have : min s.application_date t.application_date = s.application_date :=
      min_eq_left (le_of_lt h)
    rw [this]
  · rename_i h
    have : min s.application_date t.application_date = t.application_date :=
      min_eq_right (le_of_not_lt h)
    rw [this]

/-- Step 2 touches only `current_status`. -/
theorem merge_status_fields (s t : Application) :
    (merge_status s t).company = t.company
    ∧ (merge_status s t).position = t.position
    ∧ (merge_status s t).row_number = t.row_number
    ∧ (merge_status s t).application_date = t.application_date
    ∧ (merge_status s t).gmail_link = t.gmail_link
    ∧ (merge_status s t).latest_email_date = t.latest_email_date := by
  refine ⟨?_, ?_, ?_, ?_, ?_, ?_⟩ <;> (simp only [merge_status]; split <;> rfl)

/-- Step 3 touches only `email_count`. -/
theorem merge_email_count_fields (s t : Application) :
    (merge_email_count s t).company = t.company
    ∧ (merge_email_count s t).position = t.position
    ∧ (merge_email_count s t).row_number = t.row_number
    ∧ (merge_email_count s t).application_date = t.application_date
    ∧ (merge_email_count s t).gmail_link = t.gmail_link
    ∧ (merge_email_count s t).latest_email_date = t.latest_email_date :=
  ⟨rfl, rfl, rfl, rfl, rfl, rfl⟩

/-- Step 4 touches only `latest_email_date`. -/
theorem merge_latest_email_date_fields (s t : Application) :
    (merge_latest_email_date s t).company = t.company
    ∧ (merge_latest_email_date s t).position = t.position
    ∧ (merge_latest_email_date s t).row_number = t.row_number
    ∧ (merge_latest_email_date s t).application_date = t.application_date
    ∧ (merge_latest_email_date s t).gmail_link = t.gmail_link := by
  refine ⟨?_, ?_, ?_, ?_, ?_⟩ <;> (simp only [merge_latest_email_date]; split <;> rfl)

/-- What step 4 leaves in `latest_email_date`: the later of the two dates
(null-safe). -/
theorem merge_latest_email_date_spec (s t : Application) :
    (merge_latest_email_date s t).latest_email_date =
      match s.latest_email_date, t.latest_email_date with
      | some sd, some td => some (max td sd)
      | some sd, none => some sd
      | none, _ => t.latest_email_date := by
  simp only [merge_latest_email_date]
  rcases hs : s.latest_email_date with _ | sd <;> rcases ht : t.latest_email_date with _ | td
  · simp [ht]
  · simp [ht]
  · simp
  · by_cases h : td < sd
    · simp [h, max_eq_right (le_of_lt h)]
    · simp [h, ht, max_eq_left (le_of_not_lt h)]

/-- Step 5 touches only `gmail_link`. -/
theorem merge_gmail_link_fields (s t : Application) :
    (merge_gmail_link s t).company = t.company
    ∧ (merge_gmail_link s t).position = t.position
    ∧ (merge_gmail_link s t).row_number = t.row_number
    ∧ (merge_gmail_link s t).application_date = t.application_date
    ∧ (merge_gmail_link s t).latest_email_date = t.latest_email_date := by
  refine ⟨?_, ?_, ?_, ?_, ?_⟩ <;>
    (simp only [merge_gmail_link]; split <;> (first | rfl | (split <;> rfl)))

/-- Step 6 touches only `notes`. -/
theorem merge_notes_fields (s t : Application) :
    (merge_notes s t).company = t.company
    ∧ (merge_notes s t).position = t.position
    ∧ (merge_notes s t).row_number = t.row_number
    ∧ (merge_notes s t).application_date = t.application_date
    ∧ (merge_notes s t).gmail_link = t.gmail_link
    ∧ (merge_notes s t).latest_email_date = t.latest_email_date := by
  refine ⟨?_, ?_, ?_, ?_, ?_, ?_⟩ <;>
    (simp only [merge_notes]; split <;> (first | rfl | (split <;> rfl)))

/-- `add_thread_id` touches only `thread_id`. -/
theorem add_thread_id_fields (a : Application) (tid : String) :
    (a.add_thread_id tid).company = a.company
    ∧ (a.add_thread_id tid).position = a.position
    ∧ (a.add_thread_id tid).row_number = a.row_number
    ∧ (a.add_thread_id tid).application_date = a.application_date
    ∧ (a.add_thread_id tid).gmail_link = a.gmail_link
    ∧ (a.add_thread_id tid).latest_email_date = a.latest_email_date := by
  refine ⟨?_, ?_, ?_, ?_, ?_, ?_⟩ <;>
    (simp only [Application.add_thread_id]; split <;> rfl)

/-- The thread-id fold of step 7 touches only `thread_id`. -/
theorem thread_id_foldl_fields (skip : List String) (l : List String) :
    ∀ t : Application,
      (l.foldl (fun acc tid =>
          if skip.contains tid then acc else acc.add_thread_id tid) t).company = t.company
      ∧ (l.foldl (fun acc tid =>
          if skip.contains tid then acc else acc.add_thread_id tid) t).position = t.position
      ∧ (l.foldl (fun acc tid =>
          if skip.contains tid then acc else acc.add_thread_id tid) t).row_number = t.row_number
      ∧ (l.foldl (fun acc tid =>
          if skip.contains tid then acc else acc.add_thread_id tid) t).application_date = t.application_date
      ∧ (l.foldl (fun acc tid =>
          if skip.contains tid then acc else acc.add_thread_id tid) t).gmail_link = t.gmail_link
      ∧ (l.foldl (fun acc tid =>
          if skip.contains tid then acc else acc.add_thread_id tid) t).latest_email_date = t.latest_email_date := by
  induction l with
  | nil => intro t; exact ⟨rfl, rfl, rfl, rfl, rfl, rfl⟩
  | cons hd tl ih =>
      intro t
      simp only [List.foldl_cons]
      by_cases hc : skip.contains hd
      · simp only [hc, if_true]
        exact ih t
      · simp only [hc, if_false]
        obtain ⟨a1, a2, a3, a4, a5, a6⟩ := add_thread_id_fields t hd
        obtain ⟨b1, b2, b3, b4, b5, b6⟩ := ih (t.add_thread_id hd)
        exact ⟨b1.trans a1, b2.trans a2, b3.trans a3, b4.trans a4, b5.trans a5, b6.trans a6⟩

/-- Step 7 touches only `thread_id`. -/
theorem merge_thread_ids_fields (s t : Application) :
    (merge_thread_ids s t).company = t.company
    ∧ (merge_thread_ids s t).position = t.position
    ∧ (merge_thread_ids s t).row_number = t.row_number
    ∧ (merge_thread_ids s t).application_date = t.application_date
    ∧ (merge_thread_ids s t).gmail_link = t.gmail_link
    ∧ (merge_thread_ids s t).latest_email_date = t.latest_email_date := by
  unfold merge_thread_ids
  exact thread_id_foldl_fields t.get_thread_ids s.get_thread_ids t

/-! ### C10: Merge frame property -/

/-- C10.  Merge frame property: `execute_merge` leaves the target's
`company`, `position` and `row_number` unchanged; every assignment in the
merge steps rewrites one of the target's other fields, and the source
record is never written at all (the embedding threads only the target
through the steps because no step assigns to the source). -/
theorem execute_merge_frame (now : Int) (s t : Application) :
    (execute_merge now s t).company = t.company
    ∧ (execute_merge now s t).position = t.position
    ∧ (execute_merge now s t).row_number = t.row_number := by
  have h1 := merge_status_fields s (merge_application_date s t)
  have h2 := merge_email_count_fields s (merge_status s (merge_application_date s t))
  have h3 := merge_latest_email_date_fields s
    (merge_email_count s (merge_status s (merge_application_date s t)))
  have h4 := merge_gmail_link_fields s
    (merge_latest_email_date s (merge_email_count s (merge_status s (merge_application_date s t))))
  have h5 := merge_notes_fields s
    (merge_gmail_link s (merge_latest_email_date s
      (merge_email_count s (merge_status s (merge_application_date s t)))))
  have h6 := merge_thread_ids_fields s
    (merge_notes s (merge_gmail_link s (merge_latest_email_date s
      (merge_email_count s (merge_status s (merge_application_date s t))))))
  have hbase := merge_application_date_eq s t
  refine ⟨?_, ?_, ?_⟩
  · show (merge_thread_ids s (merge_notes s (merge_gmail_link s (merge_latest_email_date s
      (merge_email_count s (merge_status s (merge_application_date s t))))))).company = t.company
    rw [h6.1, h5.1, h4.1, h3.1, h2.1, h1.1, hbase]
  · show (merge_thread_ids s (merge_notes s (merge_gmail_link s (merge_latest_email_date s
      (merge_email_count s (merge_status s (merge_application_date s t))))))).position = t.position
    rw [h6.2.1, h5.2.1, h4.2.1, h3.2.1, h2.2.1, h1.2.1, hbase]
  · show (merge_thread_ids s (merge_notes s (merge_gmail_link s (merge_latest_email_date s
      (merge_email_count s (merge_status s (merge_application_date s t))))))).row_number = t.row_number
    rw [h6.2.2.1, h5.2.2.1, h4.2.2.1, h3.2.2.1, h2.2.2.1, h1.2.2.1, hbase]

/-! ### C7: Earliest-date invariant -/

/-- A single matched update keeps the earliest of the stored date and the
email's date. -/
theorem update_app_fields_application_date (app : Application) (e : Email) :
    (update_app_fields app e).application_date = min app.application_date e.date := by
  simp only [update_app_fields]
  split <;> split <;> simp <;> omega

/-- Folding matched updates accumulates the minimum of the visited email
dates. -/
theorem foldl_update_app_fields_date (es : List Email) :
    ∀ app : Application,
      (es.foldl update_app_fields app).application_date =
        es.foldl (fun d e => min d e.date) app.application_date := by
  induction es with
  | nil => intro app; rfl
  | cons e tl ih =>
      intro app
      simp only [List.foldl_cons]
      rw [ih (update_app_fields app e), update_app_fields_application_date]

/-- A merge keeps the earlier of the two application dates. -/
theorem execute_merge_application_date (now : Int) (s t : Application) :
    (execute_merge now s t).application_date =
      min s.application_date t.application_date := by
  have h1 := merge_status_fields s (merge_application_date s t)
  have h2 := merge_email_count_fields s (merge_status s (merge_application_date s t))
  have h3 := merge_latest_email_date_fields s
    (merge_email_count s (merge_status s (merge_application_date s t)))
  have h4 := merge_gmail_link_fields s
    (merge_latest_email_date s (merge_email_count s (merge_status s (merge_application_date s t))))
  have h5 := merge_notes_fields s
    (merge_gmail_link s (merge_latest_email_date s
      (merge_email_count s (merge_status s (merge_application_date s t)))))
  have h6 := merge_thread_ids_fields s
    (merge_notes s (merge_gmail_link s (merge_latest_email_date s
      (merge_email_count s (merge_status s (merge_application_date s t))))))
  show (merge_thread_ids s (merge_notes s (merge_gmail_link s (merge_latest_email_date s
      (merge_email_count s (merge_status s (merge_application_date s t))))))).application_date =
    min s.application_date t.application_date
  rw [h6.2.2.2.1, h5.2.2.2.1, h4.2.2.2.1, h3.2.2.2.1, h2.2.2.2.1, h1.2.2.2.1,
    merge_application_date_eq]

/-- C7.  Earliest-date invariant: `update_application`'s field update sets
`application_date` to the minimum of the stored date and the email's date
(so it never increases), a merge sets it to the earlier of source and
target, and after a creation followed by any sequence of matched updates it
equals the minimum timestamp of all contributing emails. -/
theorem earliest_date_invariant :
    (∀ (app : Application) (e : Email),
        (update_app_fields app e).application_date =
          min app.application_date e.date)
    ∧ (∀ (app : Application) (e : Email),
        (update_app_fields app e).application_date ≤ app.application_date)
    ∧ (∀ (now : Int) (s t : Application),
        (execute_merge now s t).application_date =
          min s.application_date t.application_date)
    ∧ (∀ (e : Email) (es : List Email),
        (es.foldl update_app_fields (new_application_record e)).application_date =
          (es.map Email.date).foldl min e.date) := by
  refine ⟨update_app_fields_application_date, ?_, execute_merge_application_date, ?_⟩
  · intro app e
    rw [update_app_fields_application_date]
    exact min_le_left _ _
  · intro e es
    rw [foldl_update_app_fields_date]
    have : (new_application_record e).application_date = e.date := rfl
    rw [this, ← List.foldl_map]

/-! ### C9: Merge gmail_link rule -/

/-- Total characterisation of `gmail_link` after a merge: because step 4
overwrites the target's `latest_email_date` before step 5 compares the two
dates, the source's link is copied over only when the source has *no*
latest-email date, a non-empty link, and the target's link is empty; in
every other case — in particular whenever both sides have dates, however
they are ordered — the target keeps its own link. -/
theorem execute_merge_gmail_link_spec (now : Int) (s t : Application) :
    (execute_merge now s t).gmail_link =
      if s.latest_email_date = none ∧ s.gmail_link ≠ "" ∧ t.gmail_link = ""
      then s.gmail_link else t.gmail_link := by
  have h5 := merge_notes_fields s
    (merge_gmail_link s (merge_latest_email_date s
      (merge_email_count s (merge_status s (merge_application_date s t)))))
  have h6 := merge_thread_ids_fields s
    (merge_notes s (merge_gmail_link s (merge_latest_email_date s
      (merge_email_count s (merge_status s (merge_application_date s t))))))
  have hglink : (merge_latest_email_date s
      (merge_email_count s (merge_status s (merge_application_date s t)))).gmail_link
      = t.gmail_link := by
    rw [(merge_latest_email_date_fields s _).2.2.2.2,
      (merge_email_count_fields s _).2.2.2.2.1,
      (merge_status_fields s _).2.2.2.2.1, merge_application_date_eq]
  have hlatest3 : (merge_email_count s
      (merge_status s (merge_application_date s t))).latest_email_date
      = t.latest_email_date := by
    rw [(merge_email_count_fields s _).2.2.2.2.2,
      (merge_status_fields s _).2.2.2.2.2, merge_application_date_eq]
  show (merge_thread_ids s (merge_notes s (merge_gmail_link s (merge_latest_email_date s
      (merge_email_count s (merge_status s (merge_application_date s t))))))).gmail_link = _
  rw [h6.2.2.2.2.1, h5.2.2.2.2.1]
  have hlatest4 := merge_latest_email_date_spec s
    (merge_email_count s (merge_status s (merge_application_date s t)))
  rw [hlatest3] at hlatest4
  rcases hs : s.latest_email_date with _ | sd
  · rw [hs] at hlatest4
    simp only [merge_gmail_link]
    rw [hs, hlatest4, hglink]
    rcases ht : t.latest_email_date with _ | td <;>
      by_cases hcond : ¬s.gmail_link = "" ∧ t.gmail_link = "" <;>
      simp [hs, hcond, hglink]
  · rw [hs] at hlatest4
    rcases ht : t.latest_email_date with _ | td
    · rw [ht] at hlatest4
      simp only at hlatest4
      simp only [merge_gmail_link]
      rw [hs, hlatest4, hglink]
      simp [hs, hglink]
    · rw [ht] at hlatest4
      simp only at hlatest4
      simp only [merge_gmail_link]
      rw [hs, hlatest4, hglink]
      have hmax : ¬ (max td sd < sd) := not_lt.mpr (le_max_right td sd)
      simp [hs, hmax, hglink]

/-- The concrete source record for the C9 failing input: its latest email
(date 2) is strictly later than the target's (date 1), and it carries a
non-empty link. -/
def src_c9 : Application :=
  { company := "Acme", position := "Engineer", application_date := 0,
    current_status := "Applied", last_updated := 0, email_count := 2,
    latest_email_date := some 2, gmail_link := "https://mail/source",
    row_number := some 3, merge_into_row := some "2" }

/-- The concrete target record for the C9 failing input: an earlier latest
email (date 1) and its own non-empty link. -/
def tgt_c9 : Application :=
  { company := "Acme", position := "Engineer", application_date := 0,
    current_status := "Applied", last_updated := 0, email_count := 1,
    latest_email_date := some 1, gmail_link := "https://mail/target",
    row_number := some 2 }

/-- C9.  The code does not implement the spec's gmail-link rule: after a
merge, the target's `gmail_link` is the source's link only when the source
has no latest-email date, a non-empty link, and the target's link is empty;
whenever both sides have a `latest_email_date` the target keeps its own
link even when the source's date is strictly later (the concrete instance:
source date 2 with link "https://mail/source" versus target date 1 — the
merged record still carries "https://mail/target"). -/
theorem merge_gmail_link_divergence :
    (∀ (now : Int) (s t : Application),
        (execute_merge now s t).gmail_link =
          if s.latest_email_date = none ∧ s.gmail_link ≠ "" ∧ t.gmail_link = ""
          then s.gmail_link else t.gmail_link)
    ∧ src_c9.latest_email_date = some 2
    ∧ tgt_c9.latest_email_date = some 1
    ∧ src_c9.gmail_link = "https://mail/source"
    ∧ (execute_merge 10 src_c9 tgt_c9).gmail_link = "https://mail/target"
    ∧ (execute_merge 10 src_c9 tgt_c9).latest_email_date = some 2 := by
  refine ⟨execute_merge_gmail_link_spec, rfl, rfl, rfl, ?_, ?_⟩ <;> decide

/-! ### C3: Monotonic status invariant -/

/-- What the update leaves in `current_status`: the email's status when the
non-terminal gate passes, the stored status otherwise. -/
theorem update_app_fields_status_eq (app : Application) (e : Email) :
    (update_app_fields app e).current_status =
      if !(TERMINAL_STATUSES.contains app.current_status)
          && should_update_status app.current_status e.status
      then e.status.getD app.current_status else app.current_status := by
  simp only [update_app_fields]
  split <;> split <;> simp_all

/-- A passing gate for a recognised current status names a recognised new
status at an index at least as large. -/
theorem should_update_status_sound {current : String} {st : Option String}
    (hmem : current ∈ STATUS_VALUES)
    (h : should_update_status current st = true) :
    ∃ n, st = some n ∧ n ∈ STATUS_VALUES ∧
      STATUS_VALUES.indexOf current ≤ STATUS_VALUES.indexOf n := by
  have hc : STATUS_VALUES.contains current = true := by simpa using hmem
  unfold should_update_status at h
  by_cases ht : TERMINAL_STATUSES.contains current = true
  · rw [if_pos ht] at h; exact absurd h (by simp)
  · rw [if_neg ht] at h
    match st, h with
    | some n, h =>
        by_cases hn : STATUS_VALUES.contains n = true
        · refine ⟨n, rfl, by simpa using hn, ?_⟩
          simp only [hn, hc] at h
          simpa using h
        · simp only [Bool.not_eq_true] at hn
          simp [hn] at h
          exact absurd h.1 (by simpa using hn)

/-- C3.  Monotonic status invariant: a terminal `current_status` survives
any sequence of matched updates unchanged; and a single matched update of
an application whose non-terminal status is in the fixed ordering leaves a
status in the ordering with an index at least as large (hence, by
induction, every sequence of matched updates only moves the status
forward). -/
theorem monotonic_status_invariant :
    (∀ (app : Application) (emails : List Email),
        app.current_status ∈ TERMINAL_STATUSES →
        (emails.foldl update_app_fields app).current_status = app.current_status)
    ∧ (∀ (app : Application) (e : Email),
        app.current_status ∉ TERMINAL_STATUSES →
        app.current_status ∈ STATUS_VALUES →
        (update_app_fields app e).current_status ∈ STATUS_VALUES ∧
        STATUS_VALUES.indexOf app.current_status ≤
          STATUS_VALUES.indexOf (update_app_fields app e).current_status) := by
  constructor
  · intro app emails
    induction emails generalizing app with
    | nil => intro _; rfl
    | cons e tl ih =>
        intro h
        have hc : TERMINAL_STATUSES.contains app.current_status = true := by
          simpa using h
        have hstep : (update_app_fields app e).current_status = app.current_status := by
          rw [update_app_fields_status_eq, hc]
          simp
        simp only [List.foldl_cons]
        rw [ih (update_app_fields app e) (by rw [hstep]; exact h), hstep]
  · intro app e hterm hmem
    have hc : TERMINAL_STATUSES.contains app.current_status = false := by
      simpa using hterm
    rw [update_app_fields_status_eq, hc]
    by_cases hg : should_update_status app.current_status e.status = true
    · obtain ⟨n, hn, hnmem, hle⟩ := should_update_status_sound hmem hg
      have hg' : should_update_status app.current_status (some n) = true := hn ▸ hg
      simp [hn, hg', hnmem, hle]
    · simp only [Bool.not_eq_true] at hg
      simp [hg, hmem]

/-- A terminal application and a later email for the C3 witness. -/
def app_terminal_c3 : Application :=
  { company := "Globex", position := "Analyst", application_date := 0,
    current_status := "Rejected", last_updated := 0 }

/-- A non-terminal application for the C3 witness. -/
def app_applied_c3 : Application :=
  { company := "Globex", position := "Analyst", application_date := 0,
    current_status := "Applied", last_updated := 0 }

/-- The incoming email used by the C3 witness: proposes
"Interview Scheduled". -/
def email_c3 : Email :=
  { message_id := "m-c3", thread_id := "t-c3", date := 5, gmail_link := "",
    status := some "Interview Scheduled" }

/-- Witness for C3: the invariant applied to a concrete terminal
application (status survives an update) and a concrete "Applied"
application (the update stays in the ordering and does not move back). -/
theorem monotonic_status_invariant_witness :
    ([email_c3].foldl update_app_fields app_terminal_c3).current_status =
      app_terminal_c3.current_status
    ∧ (update_app_fields app_applied_c3 email_c3).current_status ∈ STATUS_VALUES
    ∧ STATUS_VALUES.indexOf app_applied_c3.current_status ≤
        STATUS_VALUES.indexOf (update_app_fields app_applied_c3 email_c3).current_status :=
  ⟨monotonic_status_invariant.1 app_terminal_c3 [email_c3] (by decide),
   (monotonic_status_invariant.2 app_applied_c3 email_c3 (by decide) (by decide)).1,
   (monotonic_status_invariant.2 app_applied_c3 email_c3 (by decide) (by decide)).2⟩

/-! ### C1: Matcher priority -/

/-- C1.  Matcher priority: whatever the fuzzy-similarity function, the
clock, and the exact/fuzzy/recent-company candidates, if some
application's thread-id set contains the email's conversation id (and the
merge redirection map has no entry for that id, its state for any
un-merged thread), then `find_match` returns such an application with
confidence 100 — strategy 1 answers before strategies 2–4 are consulted. -/
theorem find_match_thread_id_priority
    (ratio : String → String → ℚ) (merged_thread_ids : String → Option String)
    (now : Int) (email : Email) (applications : List Application)
    (hmerged : merged_thread_ids email.thread_id = none)
    (h : ∃ app ∈ applications, email.thread_id ∈ app.get_thread_ids) :
    ∃ app, find_match ratio merged_thread_ids now email applications = (some app, 100)
      ∧ email.thread_id ∈ app.get_thread_ids := by
  obtain ⟨a0, ha0, hmem⟩ := h
  have hne : applications.isEmpty = false := by
    cases applications with
    | nil => cases ha0
    | cons hd tl => rfl
  have hfind : ∃ a, applications.find?
      (fun app => app.get_thread_ids.contains email.thread_id) = some a := by
    have : (applications.find?
        (fun app => app.get_thread_ids.contains email.thread_id)).isSome := by
      rw [List.find?_isSome]
      exact ⟨a0, ha0, by simpa using hmem⟩
    exact Option.isSome_iff_exists.mp this
  obtain ⟨a, ha⟩ := hfind
  have hpa : email.thread_id ∈ a.get_thread_ids := by
    have := List.find?_some ha
    simpa using this
  have hr1 : match_by_thread_id merged_thread_ids email applications = (some a, 100) := by
    simp only [match_by_thread_id, hmerged, ha]
  refine ⟨a, ?_, hpa⟩
  unfold find_match
  rw [hne, hr1]
  simp

/-- The application sitting in the C1 witness list: it owns thread "t-1". -/
def app_c1 : Application :=
  { company := "Initech", position := "Developer", application_date := 0,
    current_status := "Applied", last_updated := 0, thread_id := some "t-1" }

/-- A second application for the C1 witness whose company/position text
would also match the email. -/
def app_c1_other : Application :=
  { company := "Initech", position := "Developer", application_date := 0,
    current_status := "Applied", last_updated := 0, thread_id := some "t-2" }

/-- The email of the C1 witness: conversation id "t-1", text matching both
applications. -/
def email_c1 : Email :=
  { message_id := "m-c1", thread_id := "t-1", date := 0, gmail_link := "",
    company := some "Initech", position := some "Developer" }

/-- Witness for C1: with a constant similarity of 100 and an empty merge
map, the matcher picks the thread-id owner with confidence 100 even though
the other application matches exactly and fuzzily. -/
theorem find_match_thread_id_priority_witness :
    ∃ app, find_match (fun _ _ => (100 : ℚ)) (fun _ => none) 0 email_c1
        [app_c1_other, app_c1] = (some app, 100)
      ∧ email_c1.thread_id ∈ app.get_thread_ids :=
  find_match_thread_id_priority (fun _ _ => (100 : ℚ)) (fun _ => none) 0 email_c1
    [app_c1_other, app_c1] rfl
    ⟨app_c1, by decide, by decide⟩

/-! ### C5: Conflict resolution memoization -/

/-- C5.  Conflict resolution memoization: (i) after `save_resolution`, a
`find_resolution` on any triple whose field name and normalized values
agree returns the saved record; (ii) in interactive mode, when every real
conflict passed to the resolver has a saved resolution, the resolver
answers without reaching the console prompt (`.error ()` marks the
prompt); (iii) for a single saved "Company" conflict the answer carries
exactly the saved chosen value — so an identical normalized conflict
prompts at most once across occurrences. -/
theorem conflict_resolution_memoization :
    (∀ (data : Resolutions) (f f' : String) (ss em ss' em' : Option String)
        (chosen rtype : String),
        pyLower f = pyLower f' →
        normalize_text (ss.getD "") = normalize_text (ss'.getD "") →
        normalize_text (em.getD "") = normalize_text (em'.getD "") →
        find_resolution (save_resolution data f ss em chosen rtype) f' ss' em' =
          some { field_name := f, spreadsheet_value := ss, email_value := em,
                 chosen_value := chosen, resolution_type := rtype })
    ∧ (∀ (tracker : Resolutions) (application : Application)
        (conflicts : List FieldConflict),
        conflicts ≠ [] →
        (∀ c ∈ conflicts, c.is_upgrade = false) →
        (∀ c ∈ conflicts,
          (find_resolution tracker c.field_name c.spreadsheet_value c.email_value).isSome) →
        ∃ r, resolve_conflicts true tracker application conflicts = .ok r)
    ∧ (∀ (tracker : Resolutions) (application : Application)
        (c : FieldConflict) (res : Resolution),
        c.is_upgrade = false → c.field_name = "Company" →
        find_resolution tracker c.field_name c.spreadsheet_value c.email_value = some res →
        resolve_conflicts true tracker application [c] =
          .ok { company := some res.chosen_value,
                position := some application.position, user_modified := true }) := by
  refine ⟨?_, ?_, ?_⟩
  · intro data f f' ss em ss' em' chosen rtype hf hss hem
    have hkey : make_key f' ss' em' = make_key f ss em := by
      unfold make_key
      rw [hf, hss, hem]
    unfold find_resolution save_resolution
    rw [hkey]
    simp
  · intro tracker application conflicts hne hreal hsaved
    have hem : conflicts.isEmpty = false := by
      cases conflicts with
      | nil => exact absurd rfl hne
      | cons hd tl => rfl
    have hfilter : conflicts.filter (fun c => !c.is_upgrade) = conflicts :=
      List.filter_eq_self.mpr (fun c hc => by simp [hreal c hc])
    have hall : conflicts.all (fun c =>
        (find_resolution tracker c.field_name c.spreadsheet_value c.email_value).isSome)
        = true :=
      List.all_eq_true.mpr (fun c hc => by simpa using hsaved c hc)
    unfold resolve_conflicts
    rw [hem]
    simp only [Bool.not_true, if_false, hfilter, hem]
    unfold prompt_user
    rw [hall]
    simp
  · intro tracker application c res hup hname hfind
    have hem : ([c] : List FieldConflict).isEmpty = false := rfl
    unfold resolve_conflicts
    simp only [hem, List.filter, hup, Bool.not_false, Bool.false_eq_true, if_false,
      List.isEmpty_cons, Bool.not_true, cond_true, cond_false]
    unfold prompt_user
    simp only [List.all_cons, List.all_nil, hfind, Option.isSome_some, Bool.and_true,
      if_true]
    unfold resolved_values
    simp only [List.foldl_cons, List.foldl_nil, hfind, List.any_nil, List.nil_append,
      if_neg]
    rw [hname]
    simp [List.lookup]

/-- The saved resolution used by the C5 witness. -/
def res_c5 : Resolution :=
  { field_name := "Company", spreadsheet_value := some "Acme Inc",
    email_value := some "ACME", chosen_value := "Acme",
    resolution_type := "use_email" }

/-- The tracker holding exactly the C5 witness resolution. -/
def tracker_c5 : Resolutions :=
  save_resolution Resolutions.empty "Company" (some "Acme Inc") (some "ACME")
    "Acme" "use_email"

/-- The later occurrence of the same conflict, differing only in case and
spacing. -/
def conflict_c5 : FieldConflict :=
  { field_name := "Company", spreadsheet_value := some "acme  inc",
    email_value := some "acme", is_upgrade := false }

/-- The application the C5 witness resolves against. -/
def app_c5 : Application :=
  { company := "Acme Inc", position := "Engineer", application_date := 0,
    current_status := "Applied", last_updated := 0 }

/-- Witness for C5: the resolution saved for ("Company", "Acme Inc",
"ACME") is found for the case/space-variant triple, and the resolver
answers the repeated conflict with the saved choice instead of prompting. -/
theorem conflict_resolution_memoization_witness :
    find_resolution tracker_c5 "Company" (some "acme  inc") (some "acme") =
      some res_c5
    ∧ resolve_conflicts true tracker_c5 app_c5 [conflict_c5] =
        .ok { company := some "Acme", position := some "Engineer",
              user_modified := true } := by
  have h1 := conflict_resolution_memoization.1 Resolutions.empty "Company" "Company"
    (some "Acme Inc") (some "ACME") (some "acme  inc") (some "acme")
    "Acme" "use_email" (by decide) (by decide) (by decide)
  have h2 := conflict_resolution_memoization.2.2 tracker_c5 app_c5 conflict_c5 res_c5
    rfl rfl (by exact h1)
  exact ⟨h1, h2⟩

/-! ### C6: Merge validation -/

/-- A pair passed by `_validate_merge` has distinct rows and a target with
no pending merge flag (a flag that is absent or blank after stripping). -/
theorem validate_merge_sound {s t : Application}
    (h : validate_merge s t = true) :
    s.row_number ≠ t.row_number
    ∧ (∀ tm, t.merge_into_row = some tm → pyStrip tm = "") := by
  unfold validate_merge at h
  by_cases hrow : s.row_number = t.row_number
  · rw [if_pos hrow] at h
    exact absurd h (by simp)
  · rw [if_neg hrow] at h
    refine ⟨hrow, ?_⟩
    intro tm htm
    rw [htm] at h
    by_cases hblank : tm = ""
    · rw [hblank]; decide
    · by_cases hstrip : pyStrip tm = ""
      · exact hstrip
      · simp [hblank, hstrip] at h

/-- What a loop iteration of `find_merge_requests` guarantees about a pair
it contributes. -/
theorem merge_request_for_sound {applications : List Application}
    {app s t : Application}
    (h : merge_request_for applications app = some (s, t)) :
    app = s ∧ t ∈ applications
    ∧ (∃ mir n, s.merge_into_row = some mir ∧ mir ≠ ""
        ∧ pyToInt (pyStrip mir) = some n ∧ t.row_number = some n)
    ∧ s.row_number ≠ t.row_number
    ∧ (∀ tm, t.merge_into_row = some tm → pyStrip tm = "") := by
  unfold merge_request_for at h
  split at h
  · cases h
  · rename_i mir hmir
    split at h
    · cases h
    · rename_i hblank
      split at h
      · cases h
      · rename_i target_row hparse
        split at h
        · cases h
        · rename_i target_app hfind
          split at h
          · rename_i hvalid
            injection h with h1
            have hs : app = s := congrArg Prod.fst h1
            have ht : target_app = t := congrArg Prod.snd h1
            subst hs
            subst ht
            have hmem := List.mem_of_find?_eq_some hfind
            have hrow : target_app.row_number = some target_row := by
              have := List.find?_some hfind
              simpa using this
            obtain ⟨hne, hflag⟩ := validate_merge_sound hvalid
            exact ⟨rfl, hmem, ⟨mir, target_row, hmir, hblank, hparse, hrow⟩, hne, hflag⟩
          · cases h

/-- A row flagged to merge into itself (row 3 → row 3). -/
def app_self_merge : Application :=
  { company := "Beta Corp", position := "Data Engineer", application_date := 0,
    current_status := "Applied", last_updated := 0, row_number := some 3,
    merge_into_row := some "3" }

/-- Row 2 of the circular-merge pair (flagged into row 5). -/
def app_circ_a : Application :=
  { company := "Beta Corp", position := "Data Engineer", application_date := 0,
    current_status := "Applied", last_updated := 0, row_number := some 2,
    merge_into_row := some "5" }

/-- Row 5 of the circular-merge pair (flagged back into row 2). -/
def app_circ_b : Application :=
  { company := "Beta Corp", position := "Analyst", application_date := 0,
    current_status := "Applied", last_updated := 0, row_number := some 5,
    merge_into_row := some "2" }

/-- C6.  Merge validation: every pair returned by `find_merge_requests`
has a source whose merge flag parses to the row number of the returned
target (an existing row), source and target on distinct rows, and a target
with no pending merge flag of its own; every flagged application whose
request survives validation still contributes its pair (skips are not
fatal); and the concrete self-merge and mutual circular-merge states yield
zero merge pairs. -/
theorem find_merge_requests_valid :
    (∀ (applications : List Application) (s t : Application),
        (s, t) ∈ find_merge_requests applications →
        s ∈ applications ∧ t ∈ applications
        ∧ (∃ mir n, s.merge_into_row = some mir ∧ mir ≠ ""
            ∧ pyToInt (pyStrip mir) = some n ∧ t.row_number = some n)
        ∧ s.row_number ≠ t.row_number
        ∧ (∀ tm, t.merge_into_row = some tm → pyStrip tm = ""))
    ∧ (∀ (applications : List Application) (s : Application)
          (pair : Application × Application),
        s ∈ applications → merge_request_for applications s = some pair →
        pair ∈ find_merge_requests applications)
    ∧ find_merge_requests [app_self_merge] = []
    ∧ find_merge_requests [app_circ_a, app_circ_b] = [] := by
  refine ⟨?_, ?_, by decide, by decide⟩
  · intro applications s t hmem
    obtain ⟨a, ha, hsome⟩ := List.mem_filterMap.mp hmem
    obtain ⟨rfl, hrest⟩ := merge_request_for_sound hsome
    exact ⟨ha, hrest⟩
  · intro applications s pair hs hsome
    exact List.mem_filterMap.mpr ⟨s, hs, hsome⟩

/-- The valid source of the C6 witness (row 4 flagged into row 2). -/
def app_valid_src : Application :=
  { company := "Umbrella", position := "Chemist", application_date := 0,
    current_status := "Applied", last_updated := 0, row_number := some 4,
    merge_into_row := some "2" }

/-- The valid target of the C6 witness (row 2, no flag). -/
def app_valid_tgt : Application :=
  { company := "Umbrella", position := "Chemist", application_date := 0,
    current_status := "Under Review", last_updated := 0, row_number := some 2 }

/-- Witness for C6: the soundness clause applied to the one pair returned
for a concrete valid request next to an invalid self-merge row. -/
theorem find_merge_requests_valid_witness :
    app_valid_src ∈ [app_self_merge, app_valid_src, app_valid_tgt]
    ∧ app_valid_tgt ∈ [app_self_merge, app_valid_src, app_valid_tgt]
    ∧ (∃ mir n, app_valid_src.merge_into_row = some mir ∧ mir ≠ ""
        ∧ pyToInt (pyStrip mir) = some n ∧ app_valid_tgt.row_number = some n)
    ∧ app_valid_src.row_number ≠ app_valid_tgt.row_number
    ∧ (∀ tm, app_valid_tgt.merge_into_row = some tm → pyStrip tm = "") :=
  find_merge_requests_valid.1 [app_self_merge, app_valid_src, app_valid_tgt]
    app_valid_src app_valid_tgt (by decide)

/-! ### C8: Idempotence on re-delivery -/

/-- After `mark_processed`, the id is in the processed set. -/
theorem mark_processed_contains (st : ManagerState) (m : String) :
    (mark_processed st m).processed.contains m = true := by
  unfold mark_processed
  split
  · assumption
  · simp

/-- `mark_processed` never touches the sheet rows. -/
theorem mark_processed_rows (st : ManagerState) (m : String) :
    (mark_processed st m).rows = st.rows := by
  unfold mark_processed
  split <;> rfl

/-- Marking a fresh id stores it exactly once. -/
theorem mark_processed_count (st : ManagerState) (m : String)
    (h : st.processed.count m = 0) :
    (mark_processed st m).processed.count m = 1 := by
  have hmem : m ∉ st.processed := List.count_eq_zero.mp h
  have hc : st.processed.contains m = false := by simpa using hmem
  unfold mark_processed
  rw [hc]
  simp [List.count_append, h]

/-- An already-processed message id short-circuits `create_application`. -/
theorem create_application_processed (st : ManagerState) (e : Email)
    (h : st.processed.contains e.message_id = true) :
    create_application st e = (none, st) := by
  unfold create_application
  rw [h]
  simp

/-- An already-processed message id short-circuits `update_application`. -/
theorem update_application_processed (st : ManagerState) (a : Application)
    (e : Email) (h : st.processed.contains e.message_id = true) :
    update_application st a e = (false, st) := by
  unfold update_application
  rw [h]
  simp

/-- Every branch of `update_application` leaves the message id in the
processed set. -/
theorem update_application_marks (st : ManagerState) (a : Application) (e : Email) :
    ((update_application st a e).2).processed.contains e.message_id = true := by
  unfold update_application
  by_cases h : st.processed.contains e.message_id = true
  · rw [h]
    simpa using h
  · have h' : st.processed.contains e.message_id = false := by simpa using h
    rw [h']
    simp only [Bool.false_eq_true, if_false]
    split
    · exact mark_processed_contains _ _
    · exact mark_processed_contains _ _

/-- C8.  Idempotence on re-delivery: a message id already in the
processed set makes `create_application` return `None` and
`update_application` return `False`, both without touching any state;
feeding the same email twice through either operation leaves the second
call a no-op on an unchanged state (so `email_count` cannot be bumped
twice and no duplicate row can appear); and a successful create or update
of a fresh message id records that id in the processed set exactly once. -/
theorem idempotence_on_redelivery :
    (∀ (st : ManagerState) (e : Email),
        st.processed.contains e.message_id = true →
        create_application st e = (none, st))
    ∧ (∀ (st : ManagerState) (a : Application) (e : Email),
        st.processed.contains e.message_id = true →
        update_application st a e = (false, st))
    ∧ (∀ (st : ManagerState) (e : Email),
        create_application ((create_application st e).2) e =
          (none, (create_application st e).2))
    ∧ (∀ (st : ManagerState) (a : Application) (e : Email),
        update_application ((update_application st a e).2) a e =
          (false, (update_application st a e).2))
    ∧ (∀ (st : ManagerState) (e : Email),
        st.processed.count e.message_id = 0 →
        ((create_application st e).1).isSome = true →
        ((create_application st e).2).processed.count e.message_id = 1)
    ∧ (∀ (st : ManagerState) (a : Application) (e : Email),
        st.processed.count e.message_id = 0 →
        (update_application st a e).1 = true →
        ((update_application st a e).2).processed.count e.message_id = 1) := by
  refine ⟨create_application_processed, update_application_processed, ?_, ?_, ?_, ?_⟩
  · intro st e
    by_cases h1 : st.processed.contains e.message_id = true
    · rw [create_application_processed st e h1]
      exact create_application_processed st e h1
    · have h1' : st.processed.contains e.message_id = false := by simpa using h1
      by_cases h2 : st.false_positives.is_false_positive e.message_id
          (orDefault e.company "Unknown") (orDefault e.position "Unknown Position") = true
      · have hfst : create_application st e = (none, st) := by
          unfold create_application
          rw [h1', h2]
          simp
        rw [hfst]
        exact hfst
      · have h2' : st.false_positives.is_false_positive e.message_id
            (orDefault e.company "Unknown") (orDefault e.position "Unknown Position")
            = false := by simpa using h2
        have hmarked : ((create_application st e).2).processed.contains e.message_id
            = true := by
          unfold create_application
          rw [h1', h2']
          simp only [Bool.false_eq_true, if_false]
          exact mark_processed_contains _ _
        exact create_application_processed _ _ hmarked
  · intro st a e
    exact update_application_processed _ _ _ (update_application_marks st a e)
  · intro st e h0 hsome
    by_cases h1 : st.processed.contains e.message_id = true
    · rw [create_application_processed st e h1] at hsome
      exact absurd hsome (by simp)
    · have h1' : st.processed.contains e.message_id = false := by simpa using h1
      by_cases h2 : st.false_positives.is_false_positive e.message_id
          (orDefault e.company "Unknown") (orDefault e.position "Unknown Position") = true
      · have hfst : create_application st e = (none, st) := by
          unfold create_application
          rw [h1', h2]
          simp
        rw [hfst] at hsome
        exact absurd hsome (by simp)
      · have h2' : st.false_positives.is_false_positive e.message_id
            (orDefault e.company "Unknown") (orDefault e.position "Unknown Position")
            = false := by simpa using h2
        unfold create_application
        rw [h1', h2']
        simp only [Bool.false_eq_true, if_false]
        exact mark_processed_count _ _ h0
  · intro st a e h0 htrue
    by_cases h1 : st.processed.contains e.message_id = true
    · rw [update_application_processed st a e h1] at htrue
      exact absurd htrue (by simp)
    · have h1' : st.processed.contains e.message_id = false := by simpa using h1
      unfold update_application at htrue ⊢
      rw [h1'] at htrue ⊢
      simp only [Bool.false_eq_true, if_false] at htrue ⊢
      split at htrue
      · exact absurd htrue (by simp)
      · rename_i current_app hfound
        refine mark_processed_count _ _ ?_
        split <;> exact h0

/-- The manager state of the C8 witness: message "m-1" already processed. -/
def st_c8 : ManagerState :=
  { rows := [], false_positives := { message_ids := [], companies := [] },
    processed := ["m-1"] }

/-- The re-delivered email of the C8 witness. -/
def email_c8 : Email :=
  { message_id := "m-1", thread_id := "t-1", date := 0, gmail_link := "",
    company := some "Acme", position := some "Engineer",
    status := some "Applied" }

/-- The matched application the C8 witness re-delivers against. -/
def app_c8 : Application :=
  { company := "Acme", position := "Engineer", application_date := 0,
    current_status := "Applied", last_updated := 0 }

/-- Witness for C8: re-delivering "m-1" to the concrete state is a no-op
for both create and update. -/
theorem idempotence_on_redelivery_witness :
    create_application st_c8 email_c8 = (none, st_c8)
    ∧ update_application st_c8 app_c8 email_c8 = (false, st_c8) :=
  ⟨idempotence_on_redelivery.1 st_c8 email_c8 (by decide),
   idempotence_on_redelivery.2.1 st_c8 app_c8 email_c8 (by decide)⟩

end JobTracker
